import Mathlib

set_option linter.unusedVariables false

/-!
Verification of the strict DI container core (`src/core/container.ts`).

The embedding models the runtime semantics of `buildStrictDIContainer`:
JavaScript values are modelled by `Value` (object identity is tracked by an
allocation id, so `Value.obj i = Value.obj j ↔ i = j` plays the role of
JavaScript reference equality `===`); factory functions are modelled as pure
functions of their positional arguments together with an explicit allocation
counter, so that "a factory producing a new object each call" is expressible
and factory invocations are observable through the counter.  Container states
are association lists mirroring a plain JS object keyed by token symbols
(tokens are identified by their `Symbol.keyFor` string).  The mutation of the
singleton memoization cell (`instance ??= fn(...args)` in `defineSingleton`)
is modelled by threading the registration's cell through `resolve`.
-/

namespace FiocStrict

/-- Tokens are JS symbols registered in the global symbol registry; we model
them by their `Symbol.keyFor` string key. -/
abbrev Token := String

/-- The scope modes accepted by `registerFactory` / `replaceFactory`. -/
inductive Scope where
  | transient
  | singleton
  | scoped
  deriving DecidableEq, Repr

/-- Runtime JS values.  `obj id` is an object tracked by reference identity
(`id` is its allocation number); `prim` is a primitive compared by value;
`scopeObj sc` models the residual object `{ scope: sc }` produced when
`replaceFactory` spreads a `null` descriptor (its identity is not tracked
because no claim compares it). -/
inductive Value where
  | undefined
  | vnull
  | prim (s : String)
  | obj (id : Nat)
  | scopeObj (sc : Scope)
  deriving DecidableEq, Repr

/-- JS nullishness (`??=` triggers on `undefined` and `null`). -/
def Value.isNullish : Value → Bool
  | .undefined => true
  | .vnull => true
  | _ => false

/-- A factory function: receives the resolved dependency values (positional,
in declared order) and the current allocation counter, returns its result and
the new counter. -/
abbrev FactoryFn := List Value → Nat → Value × Nat

/-- The function stored in a factory registration: either the descriptor's
factory itself, or the memoizing wrapper built by `defineSingleton`, whose
cell starts out as JS `undefined` (`let instance;`). -/
inductive StoredFactory where
  | plain (fn : FactoryFn)
  | singletonWrap (fn : FactoryFn) (cell : Value)

/-- `defineSingleton` from the source: wraps `fn` with a fresh cell holding
`undefined`. -/
def defineSingleton (fn : FactoryFn) : StoredFactory :=
  .singletonWrap fn .undefined

/-- Invoking a stored factory.  The `singletonWrap` case models
`instance ??= fn(...args); return instance`: the wrapped function is invoked
exactly when the cell is nullish, and the cell is assigned the result. -/
def StoredFactory.invoke : StoredFactory → List Value → Nat → Value × Nat × StoredFactory
  | .plain fn, args, n =>
      let r := fn args n
      (r.1, r.2, .plain fn)
  | .singletonWrap fn cell, args, n =>
      if cell.isNullish then
        let r := fn args n
        (r.1, r.2, .singletonWrap fn r.1)
      else (cell, n, .singletonWrap fn cell)

/-- What a container state maps a token to.  `value` comes from
`register`/`replace`; `factory deps sf o` is the object
`{ ...descriptor, factory, scope }` stored by `replaceFactory` (`o = some sc`)
or the descriptor stored verbatim by `replaceFactoryArray` (`o = none`, no
`scope` property present); `nullResidue sc` is the object `{ scope: sc }`
stored when `replaceFactory` receives `null` (spreading `null` contributes no
properties). -/
inductive Registration where
  | value (v : Value)
  | factory (dependencies : List Token) (stored : StoredFactory) (scope : Option Scope)
  | nullResidue (scope : Scope)

/-- A container state: the JS object `containerState`, keyed by token. -/
abbrev ContainerState := List (Token × Registration)

/-- `token in containerState`. -/
def hasKey : ContainerState → Token → Bool
  | [], _ => false
  | kv :: rest, t => if kv.1 = t then true else hasKey rest t

/-- `containerState[token]` (`none` = property absent). -/
def getKey : ContainerState → Token → Option Registration
  | [], _ => none
  | kv :: rest, t => if kv.1 = t then some kv.2 else getKey rest t

/-- `draft[token] = r`: overwrite in place if the key exists, append
otherwise (JS object key insertion order). -/
def setKey : ContainerState → Token → Registration → ContainerState
  | [], t, r => [(t, r)]
  | kv :: rest, t, r =>
      if kv.1 = t then (t, r) :: rest else kv :: setKey rest t r

/-- The descriptor argument of a factory registration call, as the runtime
checks see it: a non-object value (with its string interpolation, used in the
error message), JS `null` (which *is* `typeof "object"`), or a well-formed
descriptor. -/
structure FactoryDescriptor where
  dependencies : List Token
  factory : FactoryFn

inductive DescArg where
  | nonObject (received : String)
  | jsNull
  | desc (d : FactoryDescriptor)

/-- The errors thrown by builder operations, named as in the specification;
each carries what the thrown `Error` message reports.  `typeError` models the
TypeError raised by reading `.factory` off `null`. -/
inductive BuildError where
  | malformedFactory (received : String)
  | duplicateToken (t : Token)
  | missingDependency (t : Token)
  | typeError (msg : String)
  deriving DecidableEq, Repr

/-- `replace`: unconditionally store a value registration. -/
def replace (st : ContainerState) (t : Token) (v : Value) : ContainerState :=
  setKey st t (.value v)

/-- `register`: duplicate check, then delegate to `replace`. -/
def register (st : ContainerState) (t : Token) (v : Value) :
    Except BuildError ContainerState :=
  if hasKey st t then .error (.duplicateToken t)
  else .ok (replace st t v)

/-- The factory stored by `replaceFactory`: wrapped by `defineSingleton` for
singleton scope, kept as-is otherwise. -/
def mkStored (fn : FactoryFn) (sc : Scope) : StoredFactory :=
  match sc with
  | .singleton => defineSingleton fn
  | _ => .plain fn

/-- `replaceFactory`: rejects only `typeof value !== "object"` (so `null`
passes the check); for singleton scope reading `value.factory` off `null`
raises a TypeError; otherwise stores `{ ...value, factory?, scope }`. -/
def replaceFactory (st : ContainerState) (t : Token) (value : DescArg)
    (sc : Scope) : Except BuildError ContainerState :=
  match value with
  | .nonObject r => .error (.malformedFactory r)
  | .jsNull =>
      match sc with
      | .singleton => .error (.typeError "Cannot read properties of null")
      | _ => .ok (setKey st t (.nullResidue sc))
  | .desc d =>
      .ok (setKey st t (.factory d.dependencies (mkStored d.factory sc) (some sc)))

/-- `registerFactory`: malformed-descriptor check (`typeof` and `null`),
duplicate check, dependency-presence check (first unmet dependency in
declared order), then delegation to `replaceFactory`. -/
def registerFactory (st : ContainerState) (t : Token) (value : DescArg)
    (sc : Scope) : Except BuildError ContainerState :=
  match value with
  | .nonObject r => .error (.malformedFactory r)
  | .jsNull => .error (.malformedFactory "null")
  | .desc d =>
      if hasKey st t then .error (.duplicateToken t)
      else
        match d.dependencies.find? (fun dep => !hasKey st dep) with
        | some m => .error (.missingDependency m)
        | none => replaceFactory st t (.desc d) sc

/-- `replaceFactoryArray`: stores each descriptor verbatim under its token
(`draft[value.token] = value`): no validation, no scope tag, no singleton
wrapping. -/
def replaceFactoryArray (st : ContainerState)
    (values : List (Token × FactoryDescriptor)) : ContainerState :=
  values.foldl
    (fun acc v =>
      setKey acc v.1 (.factory v.2.dependencies (.plain v.2.factory) none))
    st

/-- `merge`: `{ ...containerState, ...stateToMerge }` — the merged state's
entries override on key conflict. -/
def merge (st other : ContainerState) : ContainerState :=
  other.foldl (fun acc kv => setKey acc kv.1 kv.2) st

/-- Errors raised by resolution: unregistered token, or (for a dependency
cycle) exhaustion of the call stack, modelled by fuel. -/
inductive RError where
  | unregisteredToken (t : Token)
  | typeError (msg : String)
  | stackOverflow
  deriving DecidableEq, Repr

/-- The TypeError raised by a JS property access on a nullish value (as in
reading `.dependencies` off a stored `null` or `undefined`). -/
def jsPropAccessError (v : Value) : RError :=
  .typeError
    (if v = .vnull then "Cannot read properties of null"
     else "Cannot read properties of undefined")

/-- The mutable runtime context of a resolvable container: the state (whose
singleton cells are updated in place by the memoizing closures) and the
allocation counter for fresh objects. -/
structure RState where
  st : ContainerState
  ctr : Nat

/-- `dependencies.map(dep => diContainer.resolve(dep))`: resolve each
dependency left to right, threading the runtime context. -/
def resolveDepsAux (res : RState → Token → Except RError (Value × RState)) :
    RState → List Token → Except RError (List Value × RState)
  | σ, [] => .ok ([], σ)
  | σ, d :: ds =>
      match res σ d with
      | .error e => .error e
      | .ok (v, σ₂) =>
          match resolveDepsAux res σ₂ ds with
          | .error e => .error e
          | .ok (vs, σ₃) => .ok (v :: vs, σ₃)

/-- `resolve(token)`: absent token throws; the code then probes
`(state).dependencies` — when the stored value is null or undefined that very
property access throws a TypeError, and otherwise a registration without a
(truthy) `dependencies` property is returned directly; a factory registration
has its dependencies resolved in declared order by recursive `resolve` calls
and the stored factory is invoked with the results positionally.  Each nested
call consumes one unit of fuel (one stack frame); a cycle exhausts the
fuel. -/
def resolve : Nat → RState → Token → Except RError (Value × RState)
  | 0, _, _ => .error .stackOverflow
  | fuel + 1, σ, tok =>
      match getKey σ.st tok with
      | none => .error (.unregisteredToken tok)
      | some (.value v) =>
          if v.isNullish then .error (jsPropAccessError v)
          else .ok (v, σ)
      | some (.nullResidue sc) => .ok (.scopeObj sc, σ)
      | some (.factory deps sf sc) =>
          match resolveDepsAux (resolve fuel) σ deps with
          | .error e => .error e
          | .ok (args, σ₂) =>
              let r := sf.invoke args σ₂.ctr
              .ok (r.1, ⟨setKey σ₂.st tok (.factory deps r.2.2 sc), r.2.1⟩)

/-- The scope-local cache `instances` of one `createScope` invocation. -/
abbrev ScopeCache := List (Token × Value)

def lookupCache : ScopeCache → Token → Option Value
  | [], _ => none
  | kv :: rest, t => if kv.1 = t then some kv.2 else lookupCache rest t

/-- `getState()[token]?.["scope"] === "scoped"`. -/
def regScopeIsScoped : Option Registration → Bool
  | some (.factory _ _ o) => o == some Scope.scoped
  | some (.nullResidue sc) => sc == Scope.scoped
  | _ => false

/-- The scoped resolver handed to the `createScope` callback: consult the
scope cache for the directly requested token, otherwise delegate to the
ordinary `resolve`; store the result in the cache exactly when the token's
registration carries scope `"scoped"`. -/
def scopedResolve (fuel : Nat) (σ : RState) (cache : ScopeCache) (tok : Token) :
    Except RError (Value × RState × ScopeCache) :=
  match lookupCache cache tok with
  | some v => .ok (v, σ, cache)
  | none =>
      match resolve fuel σ tok with
      | .error e => .error e
      | .ok (v, σ₂) =>
          if regScopeIsScoped (getKey σ₂.st tok) then
            .ok (v, σ₂, cache ++ [(tok, v)])
          else .ok (v, σ₂, cache)

/-- A `createScope` callback is modelled by the sequence of tokens it passes
to the scoped resolver; `runScope` executes it. -/
def runScope (fuel : Nat) : RState → ScopeCache → List Token →
    Except RError (List Value × RState × ScopeCache)
  | σ, c, [] => .ok ([], σ, c)
  | σ, c, t :: ts =>
      match scopedResolve fuel σ c t with
      | .error e => .error e
      | .ok (v, σ₂, c₂) =>
          match runScope fuel σ₂ c₂ ts with
          | .error e => .error e
          | .ok (vs, σ₃, c₃) => .ok (v :: vs, σ₃, c₃)

/-- `createScope(callback)`: a fresh empty cache per invocation, discarded on
return (only the resolved values and the container context survive). -/
def createScope (fuel : Nat) (σ : RState) (script : List Token) :
    Except RError (List Value × RState) :=
  (runScope fuel σ [] script).map (fun r => (r.1, r.2.1))

/-!
Store model of immer's copy-on-write updates: every state snapshot a builder
chain produces is a separate allocation; `produce` (and the object spreads in
`merge`) never write to an existing snapshot, modelled here by the fact that
the lifted operations only ever append to the store.  A builder (and the
container its `getResult` returns) is identified by the index of the snapshot
it wraps.
-/

/-- The allocated state snapshots. -/
structure Store where
  states : List ContainerState

/-- The snapshot a builder/container with index `r` wraps. -/
def readState (σ : Store) (r : Nat) : ContainerState :=
  σ.states.getD r []

/-- Allocate a fresh snapshot (what immer's `produce` returns). -/
def allocState (σ : Store) (st : ContainerState) : Store × Nat :=
  (⟨σ.states ++ [st]⟩, σ.states.length)

/-- Run a builder operation's result against the store: a thrown error
allocates nothing; success allocates the new snapshot and returns the new
builder's index. -/
def liftOp (σ : Store) (res : Except BuildError ContainerState) :
    Store × Except BuildError Nat :=
  match res with
  | .error e => (σ, .error e)
  | .ok st2 => ((allocState σ st2).1, .ok (allocState σ st2).2)

def registerS (σ : Store) (r : Nat) (t : Token) (v : Value) :
    Store × Except BuildError Nat :=
  liftOp σ (register (readState σ r) t v)

def replaceS (σ : Store) (r : Nat) (t : Token) (v : Value) :
    Store × Except BuildError Nat :=
  liftOp σ (.ok (replace (readState σ r) t v))

def registerFactoryS (σ : Store) (r : Nat) (t : Token) (dv : DescArg) (sc : Scope) :
    Store × Except BuildError Nat :=
  liftOp σ (registerFactory (readState σ r) t dv sc)

def replaceFactoryS (σ : Store) (r : Nat) (t : Token) (dv : DescArg) (sc : Scope) :
    Store × Except BuildError Nat :=
  liftOp σ (replaceFactory (readState σ r) t dv sc)

def replaceFactoryArrayS (σ : Store) (r : Nat)
    (values : List (Token × FactoryDescriptor)) : Store × Except BuildError Nat :=
  liftOp σ (.ok (replaceFactoryArray (readState σ r) values))

def mergeS (σ : Store) (r : Nat) (other : ContainerState) :
    Store × Except BuildError Nat :=
  liftOp σ (.ok (merge (readState σ r) other))

/-!
Scope-tag erasure, used to compare the registrations stored by
`replaceFactoryArray` (descriptor verbatim, no scope property) with those
stored by `replaceFactory` (scope tag attached).
-/

/-- Erase the scope tag of a factory registration. -/
def eraseReg : Registration → Registration
  | .value v => .value v
  | .factory deps sf _ => .factory deps sf none
  | .nullResidue sc => .nullResidue sc

def eraseTags (st : ContainerState) : ContainerState :=
  st.map (fun kv => (kv.1, eraseReg kv.2))

def eraseR (σ : RState) : RState :=
  ⟨eraseTags σ.st, σ.ctr⟩

/-- Calling `replaceFactory` once per descriptor, in list order, with the
default scope (`"transient"`); the error branch is unreachable for a
well-formed descriptor argument. -/
def iterateReplaceFactory (st : ContainerState)
    (values : List (Token × FactoryDescriptor)) : ContainerState :=
  values.foldl
    (fun acc v =>
      match replaceFactory acc v.1 (.desc v.2) .transient with
      | .ok s => s
      | .error _ => acc)
    st

/-- The scope tag carried by a registration (absent for value registrations
and for registrations stored by `replaceFactoryArray`). -/
def regScopeTag : Registration → Option Scope
  | .factory _ _ o => o
  | .value _ => none
  | .nullResidue sc => some sc

/-!
Sample factories and container states used by concrete counterexamples,
demonstrations and witnesses.
-/

/-- A factory producing a brand-new object on every invocation. -/
def freshObjFn : FactoryFn := fun _ n => (Value.obj n, n + 1)

/-- A factory returning its first positional argument. -/
def argHeadFn : FactoryFn := fun args n => (args.getD 0 .undefined, n)

/-- A factory with a side effect (it allocates) that returns `undefined`. -/
def undefAllocFn : FactoryFn := fun _ n => (Value.undefined, n + 1)

/-- A factory returning one and the same captured object on every call. -/
def constObjFn : FactoryFn := fun _ n => (Value.obj 42, n)

/-- Container context with a singleton-scoped registration of a factory whose
result is `undefined`: the stored registration is exactly what
`replaceFactory` with scope `"singleton"` installs. -/
def c4State : RState :=
  ⟨[("s", .factory [] (.singletonWrap undefAllocFn .undefined) (some .singleton))], 0⟩

/-- The context after one resolution of `"s"` in `c4State`. -/
def c4State1 : RState :=
  ⟨[("s", .factory [] (.singletonWrap undefAllocFn .undefined) (some .singleton))], 1⟩

/-- The context after two resolutions of `"s"` in `c4State`. -/
def c4State2 : RState :=
  ⟨[("s", .factory [] (.singletonWrap undefAllocFn .undefined) (some .singleton))], 2⟩

/-- A container with a scoped registration of a factory that always returns
the same captured object. -/
def c5State : RState :=
  ⟨[("s", .factory [] (.plain constObjFn) (some .scoped))], 0⟩

/-- A container with a scoped token "d" (fresh object per invocation) and a
transient factory "f" whose dependency list is `["d"]` and whose factory
returns the resolved dependency it is handed. -/
def depScopeState : RState :=
  ⟨[("d", .factory [] (.plain freshObjFn) (some .scoped)),
    ("f", .factory ["d"] (.plain argHeadFn) (some .transient))], 0⟩

/-- A sample well-formed factory descriptor with no dependencies. -/
def c9Desc : FactoryDescriptor :=
  ⟨[], fun _ n => (Value.prim "x", n)⟩

/-!
Access lemmas for the JS-object operations on container states.
-/

theorem getKey_setKey_self (st : ContainerState) (t : Token) (r : Registration) :
    getKey (setKey st t r) t = some r := by
  induction st with
  | nil => simp [setKey, getKey]
  | cons kv rest ih =>
      by_cases h : kv.1 = t
      · simp [setKey, getKey, h]
      · simp [setKey, getKey, h, ih]

theorem getKey_setKey_ne (st : ContainerState) (t u : Token) (r : Registration)
    (h : u ≠ t) : getKey (setKey st t r) u = getKey st u := by
  have h2 : t ≠ u := Ne.symm h
  induction st with
  | nil => simp [setKey, getKey, h2]
  | cons kv rest ih =>
      by_cases hk : kv.1 = t
      · simp [setKey, getKey, hk, h2]
      · simp [setKey, getKey, hk, ih]

theorem hasKey_eq_isSome (st : ContainerState) (t : Token) :
    hasKey st t = (getKey st t).isSome := by
  induction st with
  | nil => simp [hasKey, getKey]
  | cons kv rest ih =>
      by_cases h : kv.1 = t
      · simp [hasKey, getKey, h]
      · simp [hasKey, getKey, h, ih]

theorem hasKey_setKey (st : ContainerState) (t u : Token) (r : Registration) :
    hasKey (setKey st t r) u = true ↔ (hasKey st u = true ∨ u = t) := by
  rw [hasKey_eq_isSome, hasKey_eq_isSome]
  by_cases h : u = t
  · subst h
    simp [getKey_setKey_self]
  · simp [getKey_setKey_ne st t u r h, h]

theorem setKey_of_getKey_eq (st : ContainerState) (t : Token) (r : Registration)
    (h : getKey st t = some r) : setKey st t r = st := by
  induction st with
  | nil => simp [getKey] at h
  | cons kv rest ih =>
      obtain ⟨k, v⟩ := kv
      by_cases hk : k = t
      · subst hk
        simp only [getKey, if_true, eq_self_iff_true, Option.some_inj] at h
        subst h
        simp [setKey]
      · simp only [getKey] at h
        rw [if_neg hk] at h
        simp only [setKey]
        rw [if_neg hk, ih h]

theorem readState_liftOp (σ : Store) (res : Except BuildError ContainerState)
    (j : Nat) (hj : j < σ.states.length) :
    readState (liftOp σ res).1 j = readState σ j := by
  cases res with
  | error e => rfl
  | ok st2 =>
      simp only [liftOp, allocState, readState]
      exact List.getD_append _ _ _ _ hj

theorem liftOp_fresh (σ : Store) (res : Except BuildError ContainerState)
    (i : Nat) (h : (liftOp σ res).2 = .ok i) :
    i = σ.states.length ∧ (liftOp σ res).1.states.length = σ.states.length + 1 := by
  cases res with
  | error e => simp [liftOp] at h
  | ok st2 =>
      simp only [liftOp, allocState] at h ⊢
      cases h
      simp

theorem liftOp_error_eq (σ : Store) (res : Except BuildError ContainerState)
    (e : BuildError) (h : (liftOp σ res).2 = .error e) : (liftOp σ res).1 = σ := by
  cases res with
  | error e2 => rfl
  | ok st2 => simp [liftOp, allocState] at h

theorem lookupCache_append_ne (c : ScopeCache) (t u : Token) (v : Value)
    (h : u ≠ t) : lookupCache (c ++ [(t, v)]) u = lookupCache c u := by
  have h2 : t ≠ u := Ne.symm h
  induction c with
  | nil => simp [lookupCache, h2]
  | cons kv rest ih =>
      by_cases hk : kv.1 = u
      · simp [lookupCache, hk]
      · simp [lookupCache, hk, ih]

theorem lookupCache_append_self (c : ScopeCache) (t : Token) (v : Value)
    (h : lookupCache c t = none) : lookupCache (c ++ [(t, v)]) t = some v := by
  induction c with
  | nil => simp [lookupCache]
  | cons kv rest ih =>
      by_cases hk : kv.1 = t
      · simp [lookupCache, hk] at h
      · simp only [lookupCache] at h
        rw [if_neg hk] at h
        simp only [List.cons_append, lookupCache]
        rw [if_neg hk]
        exact ih h

theorem getKey_eraseTags (st : ContainerState) (t : Token) :
    getKey (eraseTags st) t = (getKey st t).map eraseReg := by
  induction st with
  | nil => simp [eraseTags, getKey]
  | cons kv rest ih =>
      by_cases h : kv.1 = t
      · simp [eraseTags, getKey, h]
      · simp only [eraseTags, List.map_cons, getKey]
        rw [if_neg h, if_neg h]
        simpa [eraseTags] using ih

theorem eraseTags_setKey (st : ContainerState) (t : Token) (r : Registration) :
    eraseTags (setKey st t r) = setKey (eraseTags st) t (eraseReg r) := by
  induction st with
  | nil => simp [eraseTags, setKey]
  | cons kv rest ih =>
      by_cases h : kv.1 = t
      · simp [eraseTags, setKey, h]
      · simp only [setKey, eraseTags, List.map_cons]
        rw [if_neg h, if_neg h]
        simpa [eraseTags] using ih

theorem resolveDepsAux_erase
    (res : RState → Token → Except RError (Value × RState))
    (h : ∀ σ t, res (eraseR σ) t = (res σ t).map (fun p => (p.1, eraseR p.2))) :
    ∀ (ds : List Token) (σ : RState),
      resolveDepsAux res (eraseR σ) ds
        = (resolveDepsAux res σ ds).map (fun p => (p.1, eraseR p.2)) := by
  intro ds
  induction ds with
  | nil => intro σ; rfl
  | cons d rest ih =>
      intro σ
      simp only [resolveDepsAux]
      rw [h σ d]
      cases res σ d with
      | error e => rfl
      | ok p =>
          obtain ⟨v, σ₂⟩ := p
          simp only [Except.map]
          rw [ih σ₂]
          cases resolveDepsAux res σ₂ rest with
          | error e => rfl
          | ok q => rfl

theorem resolve_eraseR (fuel : Nat) :
    ∀ (σ : RState) (t : Token),
      resolve fuel (eraseR σ) t
        = (resolve fuel σ t).map (fun p => (p.1, eraseR p.2)) := by
  induction fuel with
  | zero => intro σ t; rfl
  | succ n ih =>
      intro σ t
      simp only [resolve]
      have hget : getKey (eraseR σ).st t = (getKey σ.st t).map eraseReg :=
        getKey_eraseTags σ.st t
      rw [hget]
      cases hg : getKey σ.st t with
      | none => rfl
      | some reg =>
          cases reg with
          | value v =>
              cases hv : v.isNullish with
              | true => simp [Option.map, eraseReg, hv, Except.map]
              | false => simp [Option.map, eraseReg, hv, Except.map]
          | nullResidue sc => rfl
          | factory deps sf sc =>
              simp only [Option.map, eraseReg]
              rw [resolveDepsAux_erase (resolve n) ih deps σ]
              cases hd : resolveDepsAux (resolve n) σ deps with
              | error e => rfl
              | ok p =>
                  obtain ⟨args, σ₂⟩ := p
                  simp only [Except.map, eraseR]
                  rw [eraseTags_setKey]
                  rfl

/-- A container context holding one value registration, for witnesses. -/
def c1State : RState := ⟨[("a", .value (.prim "val"))], 0⟩

/-- C1 counterexample: a value registration installed by register with the
value undefined: resolve does not return the stored value — probing its
dependencies property throws a TypeError — refuting "when the token maps to a
value registration, resolve returns that value directly". -/
theorem resolve_nullish_value_C1_cex :
    register [] "n" Value.undefined = .ok [("n", Registration.value .undefined)]
    ∧ resolve 1 ⟨[("n", Registration.value .undefined)], 0⟩ "n"
        = .error (.typeError "Cannot read properties of undefined") :=
  ⟨rfl, rfl⟩

/-- C1 amended: resolve on a token absent from the frozen state fails with
UnregisteredTokenError naming the token; on a value registration it returns
the stored value directly provided the value is not null or undefined — for a
stored nullish value the dependencies probe itself throws a TypeError; on a
factory registration it resolves each declared dependency in order by
recursive resolve calls (threading the runtime context left to right) and
then invokes the stored factory with the resolved values as positional
arguments in that exact order, returning its result. -/
theorem resolve_spec_C1 :
    (∀ (fuel : Nat) (σ : RState) (t : Token), hasKey σ.st t = false →
        resolve (fuel + 1) σ t = .error (.unregisteredToken t))
  ∧ (∀ (fuel : Nat) (σ : RState) (t : Token) (v : Value),
        getKey σ.st t = some (.value v) → v.isNullish = false →
        resolve (fuel + 1) σ t = .ok (v, σ))
  ∧ (∀ (fuel : Nat) (σ : RState) (t : Token) (v : Value),
        getKey σ.st t = some (.value v) → v.isNullish = true →
        resolve (fuel + 1) σ t = .error (jsPropAccessError v))
  ∧ (∀ (res : RState → Token → Except RError (Value × RState)) (σ : RState),
        resolveDepsAux res σ [] = .ok ([], σ))
  ∧ (∀ (res : RState → Token → Except RError (Value × RState)) (σ : RState)
        (d : Token) (ds : List Token),
        resolveDepsAux res σ (d :: ds) =
          match res σ d with
          | .error e => .error e
          | .ok (v, σ₂) =>
              match resolveDepsAux res σ₂ ds with
              | .error e => .error e
              | .ok (vs, σ₃) => .ok (v :: vs, σ₃))
  ∧ (∀ (fuel : Nat) (σ : RState) (t : Token) (deps : List Token)
        (sf : StoredFactory) (sc : Option Scope),
        getKey σ.st t = some (.factory deps sf sc) →
        resolve (fuel + 1) σ t =
          match resolveDepsAux (resolve fuel) σ deps with
          | .error e => .error e
          | .ok (args, σ₂) =>
              .ok ((sf.invoke args σ₂.ctr).1,
                ⟨setKey σ₂.st t (.factory deps (sf.invoke args σ₂.ctr).2.2 sc),
                 (sf.invoke args σ₂.ctr).2.1⟩)) := by
  refine ⟨?_, ?_, ?_, ?_, ?_, ?_⟩
  · intro fuel σ t h
    rw [hasKey_eq_isSome] at h
    cases hg : getKey σ.st t with
    | none => simp [resolve, hg]
    | some r => rw [hg] at h; simp at h
  · intro fuel σ t v h hv
    simp [resolve, h, hv]
  · intro fuel σ t v h hv
    simp [resolve, h, hv]
  · intro res σ
    rfl
  · intro res σ d ds
    rfl
  · intro fuel σ t deps sf sc h
    simp only [resolve, h]

/-- C1 witness: concrete instantiations of the unregistered-token case, the
non-nullish value-registration case and the nullish TypeError case. -/
theorem resolve_spec_C1_w :
    hasKey c1State.st "missing" = false
    ∧ resolve 1 c1State "missing" = .error (.unregisteredToken "missing")
    ∧ getKey c1State.st "a" = some (.value (.prim "val"))
    ∧ (Value.prim "val").isNullish = false
    ∧ resolve 1 c1State "a" = .ok (.prim "val", c1State)
    ∧ getKey ([("z", .value .vnull)] : ContainerState) "z" = some (.value .vnull)
    ∧ Value.vnull.isNullish = true
    ∧ resolve 1 ⟨[("z", .value .vnull)], 0⟩ "z"
        = .error (jsPropAccessError .vnull) :=
  ⟨rfl, resolve_spec_C1.1 0 c1State "missing" rfl, rfl, rfl,
    resolve_spec_C1.2.1 0 c1State "a" (.prim "val") rfl rfl, rfl, rfl,
    resolve_spec_C1.2.2.1 0 ⟨[("z", .value .vnull)], 0⟩ "z" .vnull rfl rfl⟩

/-- C2: registerFactory validates in order — malformed descriptor (non-object,
and also null, which registerFactory rejects via its truthiness check), then
duplicate token, then the first dependency (in declared order) missing from
the state — and on success delegates to replaceFactory, producing the state
that additionally maps the token to the factory registration. -/
theorem registerFactory_validation_C2 :
    (∀ (st : ContainerState) (t : Token) (r : String) (sc : Scope),
        registerFactory st t (.nonObject r) sc = .error (.malformedFactory r))
  ∧ (∀ (st : ContainerState) (t : Token) (sc : Scope),
        registerFactory st t .jsNull sc = .error (.malformedFactory "null"))
  ∧ (∀ (st : ContainerState) (t : Token) (d : FactoryDescriptor) (sc : Scope),
        hasKey st t = true →
        registerFactory st t (.desc d) sc = .error (.duplicateToken t))
  ∧ (∀ (st : ContainerState) (t : Token) (d : FactoryDescriptor) (sc : Scope)
        (m : Token),
        hasKey st t = false →
        d.dependencies.find? (fun dep => !hasKey st dep) = some m →
        registerFactory st t (.desc d) sc = .error (.missingDependency m))
  ∧ (∀ (st : ContainerState) (t : Token) (d : FactoryDescriptor) (sc : Scope),
        hasKey st t = false →
        d.dependencies.find? (fun dep => !hasKey st dep) = none →
        registerFactory st t (.desc d) sc = replaceFactory st t (.desc d) sc
        ∧ registerFactory st t (.desc d) sc =
            .ok (setKey st t
              (.factory d.dependencies (mkStored d.factory sc) (some sc)))) := by
  refine ⟨fun st t r sc => rfl, fun st t sc => rfl, ?_, ?_, ?_⟩
  · intro st t d sc h
    simp [registerFactory, h]
  · intro st t d sc m h hdep
    simp [registerFactory, h, hdep]
  · intro st t d sc h hdep
    exact ⟨by simp [registerFactory, h, hdep], by simp [registerFactory, replaceFactory, h, hdep]⟩

/-- C2 witness: a duplicate token and a missing dependency, rejected on a
concrete state; a well-formed registration succeeding on it. -/
theorem registerFactory_validation_C2_w :
    hasKey c1State.st "a" = true
    ∧ registerFactory c1State.st "a" (.desc c9Desc) .transient
        = .error (.duplicateToken "a")
    ∧ hasKey c1State.st "u" = false
    ∧ ([("x" : Token)].find? (fun dep => !hasKey c1State.st dep) = some "x")
    ∧ registerFactory c1State.st "u" (.desc ⟨["x"], argHeadFn⟩) .transient
        = .error (.missingDependency "x")
    ∧ registerFactory c1State.st "u" (.desc ⟨["a"], argHeadFn⟩) .transient
        = .ok (setKey c1State.st "u"
            (.factory ["a"] (mkStored argHeadFn .transient) (some .transient))) :=
  ⟨rfl,
    registerFactory_validation_C2.2.2.1 c1State.st "a" c9Desc .transient rfl,
    rfl, rfl,
    registerFactory_validation_C2.2.2.2.1 c1State.st "u" ⟨["x"], argHeadFn⟩ .transient "x" rfl rfl,
    (registerFactory_validation_C2.2.2.2.2 c1State.st "u" ⟨["a"], argHeadFn⟩ .transient rfl rfl).2⟩

/-- C3 counterexample: the claim quantifies over every value; registering the
value null on the empty state succeeds, but resolving the token throws a
TypeError from probing the dependencies property of the stored null — the
resolve round trip does not return the registered value. -/
theorem register_nullish_roundtrip_C3_cex :
    register [] "svc" Value.vnull = .ok [("svc", Registration.value .vnull)]
    ∧ resolve 1 ⟨[("svc", Registration.value .vnull)], 0⟩ "svc"
        = .error (.typeError "Cannot read properties of null") :=
  ⟨rfl, rfl⟩

/-- C3 amended: for a token not yet registered, register succeeds for every
value (delegating to replace); when the registered value is not null or
undefined, resolve on the resulting state returns exactly that value — the
same Value, whose object identity is tracked by its allocation id — leaving
the container context untouched; for a registered null/undefined, resolve
instead throws the TypeError of the dependencies probe. -/
theorem register_resolve_identity_C3 :
    ∀ (st : ContainerState) (t : Token) (v : Value) (fuel ctr : Nat),
      hasKey st t = false →
        register st t v = .ok (replace st t v)
        ∧ (v.isNullish = false →
            resolve (fuel + 1) ⟨replace st t v, ctr⟩ t
              = .ok (v, ⟨replace st t v, ctr⟩))
        ∧ (v.isNullish = true →
            resolve (fuel + 1) ⟨replace st t v, ctr⟩ t
              = .error (jsPropAccessError v)) := by
  intro st t v fuel ctr h
  refine ⟨by simp [register, h], ?_, ?_⟩
  · intro hv
    simp [resolve, replace, getKey_setKey_self, hv]
  · intro hv
    simp [resolve, replace, getKey_setKey_self, hv]

/-- C3 witness: registering object 7 on the empty state and resolving it
returns object 7 itself; registering undefined succeeds but resolves to the
TypeError. -/
theorem register_resolve_identity_C3_w :
    hasKey [] "svc" = false
    ∧ register [] "svc" (.obj 7) = .ok (replace [] "svc" (.obj 7))
    ∧ (Value.obj 7).isNullish = false
    ∧ resolve 1 ⟨replace [] "svc" (.obj 7), 0⟩ "svc"
        = .ok (.obj 7, ⟨replace [] "svc" (.obj 7), 0⟩)
    ∧ Value.undefined.isNullish = true
    ∧ resolve 1 ⟨replace [] "svc" .undefined, 0⟩ "svc"
        = .error (jsPropAccessError .undefined) :=
  ⟨rfl, (register_resolve_identity_C3 [] "svc" (.obj 7) 0 0 rfl).1, rfl,
    (register_resolve_identity_C3 [] "svc" (.obj 7) 0 0 rfl).2.1 rfl, rfl,
    (register_resolve_identity_C3 [] "svc" .undefined 0 0 rfl).2.2 rfl⟩

/-- C8 counterexample: replaceFactory called with the null descriptor does
not throw MalformedFactoryError — its check is only typeof value !== "object"
and typeof null is "object" — so (with the default transient scope) the call
succeeds and installs the residue of spreading null. -/
theorem replaceFactory_null_accepted_C8_cex :
    replaceFactory [] "t" DescArg.jsNull Scope.transient
      = .ok [("t", Registration.nullResidue Scope.transient)] := rfl

/-- C8 amended: replaceFactory throws MalformedFactoryError (stating the
received value) exactly for descriptors that are not of type object; null
passes the check and is installed as the registration containing only the
scope tag (for singleton scope the attempt to read .factory off null raises a
TypeError instead). -/
theorem replaceFactory_malformed_C8 :
    (∀ (st : ContainerState) (t : Token) (r : String) (sc : Scope),
        replaceFactory st t (.nonObject r) sc = .error (.malformedFactory r))
  ∧ (∀ (st : ContainerState) (t : Token),
        replaceFactory st t .jsNull .transient
          = .ok (setKey st t (.nullResidue .transient)))
  ∧ (∀ (st : ContainerState) (t : Token),
        replaceFactory st t .jsNull .scoped
          = .ok (setKey st t (.nullResidue .scoped)))
  ∧ (∀ (st : ContainerState) (t : Token),
        replaceFactory st t .jsNull .singleton
          = .error (.typeError "Cannot read properties of null")) :=
  ⟨fun st t r sc => rfl, fun st t => rfl, fun st t => rfl, fun st t => rfl⟩

/-- C4 counterexample: a singleton-scoped factory returning undefined (with
an observable side effect: each invocation advances the allocation counter by
one) is re-invoked on every resolution, because the wrapper caches via
nullish-coalescing assignment and an undefined result never populates the
cell.  After two resolutions of the same container the counter is 2: the
underlying factory ran twice, refuting invoked-at-most-once, and the first
invocation's result was not cached and returned — it was recomputed. -/
theorem singleton_nullish_reinvoked_C4_cex :
    resolve 1 c4State "s" = .ok (.undefined, c4State1)
    ∧ resolve 1 c4State1 "s" = .ok (.undefined, c4State2)
    ∧ c4State.ctr = 0 ∧ c4State1.ctr = 1 ∧ c4State2.ctr = 2 :=
  ⟨rfl, rfl, rfl, rfl, rfl⟩

/-- C4 amended: the wrapper installed for singleton scope caches through
nullish-coalescing assignment, so provided the factory's result is neither
null nor undefined the first invocation's result is cached and returned on
all subsequent invocations, the underlying factory runs at most once, and two
sequential resolve calls on the same container return the identical result
with the container context unchanged by the second call (no re-invocation:
the allocation counter does not move). -/
theorem singleton_memoization_C4 :
    (∀ (fn : FactoryFn) (cell : Value) (args : List Value) (n : Nat),
        cell.isNullish = false →
        StoredFactory.invoke (.singletonWrap fn cell) args n
          = (cell, n, .singletonWrap fn cell))
  ∧ (∀ (fn : FactoryFn) (args : List Value) (n : Nat),
        StoredFactory.invoke (.singletonWrap fn .undefined) args n
          = ((fn args n).1, (fn args n).2, .singletonWrap fn (fn args n).1))
  ∧ (∀ (fuel : Nat) (σ : RState) (t : Token) (fn : FactoryFn) (sc : Option Scope)
        (v : Value) (n2 : Nat),
        getKey σ.st t = some (.factory [] (.singletonWrap fn .undefined) sc) →
        fn [] σ.ctr = (v, n2) →
        v.isNullish = false →
        resolve (fuel + 1) σ t
          = .ok (v, ⟨setKey σ.st t (.factory [] (.singletonWrap fn v) sc), n2⟩)
        ∧ resolve (fuel + 1)
              ⟨setKey σ.st t (.factory [] (.singletonWrap fn v) sc), n2⟩ t
          = .ok (v, ⟨setKey σ.st t (.factory [] (.singletonWrap fn v) sc), n2⟩)) := by
  refine ⟨?_, ?_, ?_⟩
  · intro fn cell args n h
    simp [StoredFactory.invoke, h]
  · intro fn args n
    rfl
  · intro fuel σ t fn sc v n2 hget hfn hnn
    constructor
    · simp only [resolve, hget]
      simp [resolveDepsAux, StoredFactory.invoke, Value.isNullish, hfn]
    · have hg2 : getKey (setKey σ.st t (.factory [] (.singletonWrap fn v) sc)) t
          = some (.factory [] (.singletonWrap fn v) sc) := getKey_setKey_self _ _ _
      have hsk : setKey (setKey σ.st t (.factory [] (.singletonWrap fn v) sc)) t
            (.factory [] (.singletonWrap fn v) sc)
          = setKey σ.st t (.factory [] (.singletonWrap fn v) sc) :=
        setKey_of_getKey_eq _ _ _ hg2
      simp only [resolve, hg2]
      simp [resolveDepsAux, StoredFactory.invoke, hnn, hsk]

/-- A container context with a dependency-free singleton whose factory
allocates a fresh object per invocation. -/
def c4wState : RState :=
  ⟨[("s", .factory [] (.singletonWrap freshObjFn .undefined) (some .singleton))], 0⟩

/-- C4 witness: the fresh-object singleton resolves to object 0 and the
second resolution returns the identical object 0 without moving the
allocation counter. -/
theorem singleton_memoization_C4_w :
    getKey c4wState.st "s"
        = some (.factory [] (.singletonWrap freshObjFn .undefined) (some .singleton))
    ∧ resolve 1 c4wState "s"
        = .ok (.obj 0,
            ⟨setKey c4wState.st "s"
              (.factory [] (.singletonWrap freshObjFn (.obj 0)) (some .singleton)), 1⟩)
    ∧ resolve 1
          ⟨setKey c4wState.st "s"
            (.factory [] (.singletonWrap freshObjFn (.obj 0)) (some .singleton)), 1⟩ "s"
        = .ok (.obj 0,
            ⟨setKey c4wState.st "s"
              (.factory [] (.singletonWrap freshObjFn (.obj 0)) (some .singleton)), 1⟩) :=
  ⟨rfl,
    (singleton_memoization_C4.2.2 0 c4wState "s" freshObjFn (some .singleton)
      (.obj 0) 1 rfl rfl rfl).1,
    (singleton_memoization_C4.2.2 0 c4wState "s" freshObjFn (some .singleton)
      (.obj 0) 1 rfl rfl rfl).2⟩

/-- The scoped resolver returns a cached instance without consulting the
container. -/
theorem scopedResolve_cache_hit (fuel : Nat) (σ : RState) (c : ScopeCache)
    (t : Token) (v : Value) (h : lookupCache c t = some v) :
    scopedResolve fuel σ c t = .ok (v, σ, c) := by
  simp [scopedResolve, h]

/-- After a successful scoped resolution of a token whose registration is
scope-tagged "scoped", the scope cache holds the returned value. -/
theorem scopedResolve_caches_scoped (fuel : Nat) (σ : RState) (c : ScopeCache)
    (t : Token) (v : Value) (σ₂ : RState) (c₂ : ScopeCache)
    (h : scopedResolve fuel σ c t = .ok (v, σ₂, c₂))
    (hs : regScopeIsScoped (getKey σ₂.st t) = true) :
    lookupCache c₂ t = some v := by
  cases hl : lookupCache c t with
  | some w =>
      simp only [scopedResolve, hl, Except.ok.injEq, Prod.mk.injEq] at h
      obtain ⟨h1, h2, h3⟩ := h
      subst h1
      subst h3
      exact hl
  | none =>
      cases hr : resolve fuel σ t with
      | error e =>
          simp only [scopedResolve, hl, hr] at h
          exact Except.noConfusion h
      | ok p =>
          obtain ⟨w, σ3⟩ := p
          simp only [scopedResolve, hl, hr] at h
          by_cases hsc : regScopeIsScoped (getKey σ3.st t) = true
          · rw [if_pos hsc] at h
            simp only [Except.ok.injEq, Prod.mk.injEq] at h
            obtain ⟨h1, h2, h3⟩ := h
            subst h1
            subst h3
            exact lookupCache_append_self c t w hl
          · rw [if_neg hsc] at h
            simp only [Except.ok.injEq, Prod.mk.injEq] at h
            obtain ⟨h1, h2, h3⟩ := h
            subst h2
            exact absurd hs hsc

/-- C5 counterexample: a token registered with scope "scoped" whose factory
returns one and the same captured object each call: the first createScope
invocation yields object 42 and leaves the container context unchanged, and
running a second, separate createScope invocation on the container returned
by the first again yields object 42 — the instances across the two scopes are
reference-identical, refuting "the instances differ". -/
theorem scoped_across_scopes_C5_cex :
    createScope 1 c5State ["s"] = .ok ([Value.obj 42], c5State)
    ∧ ((createScope 1 c5State ["s"]).bind
        (fun r => (createScope 1 r.2 ["s"]).map (fun r2 => (r.1, r2.1))))
      = .ok ([Value.obj 42], [Value.obj 42]) :=
  ⟨rfl, rfl⟩

/-- C5 amended: within a single createScope callback a second resolution of a
scoped token returns the identical cached instance; each createScope
invocation starts from an empty cache, so the factory is invoked afresh per
scope — for a factory producing a new object per invocation the instances of
two separate scopes differ — and scoped instances do not leak into ordinary
resolve calls (which construct a fresh instance, never reading the scope
cache) nor into other createScope invocations. -/
theorem createScope_semantics_C5 :
    (∀ (fuel : Nat) (σ : RState) (c : ScopeCache) (t : Token) (v : Value),
        lookupCache c t = some v → scopedResolve fuel σ c t = .ok (v, σ, c))
  ∧ (∀ (fuel : Nat) (σ : RState) (c : ScopeCache) (t : Token) (v : Value)
        (σ₂ : RState) (c₂ : ScopeCache),
        scopedResolve fuel σ c t = .ok (v, σ₂, c₂) →
        regScopeIsScoped (getKey σ₂.st t) = true →
        lookupCache c₂ t = some v)
  ∧ (∀ (fuel fuel2 : Nat) (σ σ₃ : RState) (c : ScopeCache) (t : Token)
        (v : Value) (σ₂ : RState) (c₂ : ScopeCache),
        scopedResolve fuel σ c t = .ok (v, σ₂, c₂) →
        regScopeIsScoped (getKey σ₂.st t) = true →
        scopedResolve fuel2 σ₃ c₂ t = .ok (v, σ₃, c₂))
  ∧ (∀ (fuel : Nat) (σ : RState) (t : Token),
        getKey σ.st t = some (.factory [] (.plain freshObjFn) (some .scoped)) →
          createScope (fuel + 1) σ [t] = .ok ([.obj σ.ctr], ⟨σ.st, σ.ctr + 1⟩)
          ∧ createScope (fuel + 1) ⟨σ.st, σ.ctr + 1⟩ [t]
              = .ok ([.obj (σ.ctr + 1)], ⟨σ.st, σ.ctr + 2⟩)
          ∧ Value.obj σ.ctr ≠ Value.obj (σ.ctr + 1)
          ∧ resolve (fuel + 1) ⟨σ.st, σ.ctr + 1⟩ t
              = .ok (.obj (σ.ctr + 1), ⟨σ.st, σ.ctr + 2⟩)) := by
  refine ⟨scopedResolve_cache_hit, scopedResolve_caches_scoped, ?_, ?_⟩
  · intro fuel fuel2 σ σ₃ c t v σ₂ c₂ h hs
    exact scopedResolve_cache_hit fuel2 σ₃ c₂ t v
      (scopedResolve_caches_scoped fuel σ c t v σ₂ c₂ h hs)
  · intro fuel σ t h
    have hset : setKey σ.st t (.factory [] (.plain freshObjFn) (some .scoped)) = σ.st :=
      setKey_of_getKey_eq _ _ _ h
    refine ⟨?_, ?_, ?_, ?_⟩
    · simp [createScope, runScope, scopedResolve, resolve, resolveDepsAux,
        StoredFactory.invoke, freshObjFn, lookupCache, regScopeIsScoped, h, hset,
        Except.map]
    · simp [createScope, runScope, scopedResolve, resolve, resolveDepsAux,
        StoredFactory.invoke, freshObjFn, lookupCache, regScopeIsScoped, h, hset,
        Except.map]
    · intro heq
      injection heq with h2
      omega
    · simp [resolve, resolveDepsAux, StoredFactory.invoke, freshObjFn, h, hset]

/-- A container with only the fresh-object scoped registration, for the C5
witness. -/
def c5wState : RState :=
  ⟨[("d", .factory [] (.plain freshObjFn) (some .scoped))], 0⟩

/-- C5 witness: two separate createScope invocations on the fresh-object
scoped registration yield object 0 and object 1 respectively. -/
theorem createScope_semantics_C5_w :
    getKey c5wState.st "d" = some (.factory [] (.plain freshObjFn) (some .scoped))
    ∧ createScope 1 c5wState ["d"] = .ok ([.obj 0], ⟨c5wState.st, 1⟩)
    ∧ createScope 1 ⟨c5wState.st, 1⟩ ["d"] = .ok ([.obj 1], ⟨c5wState.st, 2⟩) :=
  ⟨rfl, (createScope_semantics_C5.2.2.2 0 c5wState "d" rfl).1,
    (createScope_semantics_C5.2.2.2 0 c5wState "d" rfl).2.1⟩

/-- C10: the scope-local cache is consulted and populated only for the token
passed directly to the scoped resolver.  The resolution outcome (value and
container context) depends on the cache only through the directly requested
token; on a cache miss it coincides with the ordinary resolve — whose type
does not even receive the cache, so a factory's scoped dependencies are
resolved through the ordinary path, constructing fresh instances — and the
cache is unchanged at every other token.  Concretely: with scoped token "d"
(fresh object per invocation) and factory "f" depending on "d", the scope
script d, f, d yields objects 0, 1, 0 — the dependency instance inside "f"
(object 1) is neither the scope-cached object 0 nor stored into the cache
(the final direct resolution still returns object 0). -/
theorem scope_cache_direct_only_C10 :
    (∀ (fuel : Nat) (σ : RState) (c₁ c₂ : ScopeCache) (t : Token),
        lookupCache c₁ t = lookupCache c₂ t →
          (scopedResolve fuel σ c₁ t).map (fun r => (r.1, r.2.1))
            = (scopedResolve fuel σ c₂ t).map (fun r => (r.1, r.2.1)))
  ∧ (∀ (fuel : Nat) (σ : RState) (c : ScopeCache) (t : Token),
        lookupCache c t = none →
          (scopedResolve fuel σ c t).map (fun r => (r.1, r.2.1))
            = resolve fuel σ t)
  ∧ (∀ (fuel : Nat) (σ : RState) (c : ScopeCache) (t : Token) (v : Value)
        (σ₂ : RState) (c₂ : ScopeCache),
        scopedResolve fuel σ c t = .ok (v, σ₂, c₂) →
        ∀ u, u ≠ t → lookupCache c₂ u = lookupCache c u)
  ∧ (createScope 2 depScopeState ["d", "f", "d"]
        = .ok ([.obj 0, .obj 1, .obj 0], ⟨depScopeState.st, 2⟩)
      ∧ Value.obj 1 ≠ Value.obj 0) := by
  refine ⟨?_, ?_, ?_, rfl, by decide⟩
  · intro fuel σ c₁ c₂ t h
    cases hl : lookupCache c₂ t with
    | some v => simp [scopedResolve, h, hl, Except.map]
    | none =>
        cases hr : resolve fuel σ t with
        | error e => simp [scopedResolve, h, hl, hr, Except.map]
        | ok p =>
            obtain ⟨v, σ₂⟩ := p
            by_cases hs : regScopeIsScoped (getKey σ₂.st t) = true
            · simp [scopedResolve, h, hl, hr, hs, Except.map]
            · simp [scopedResolve, h, hl, hr, hs, Except.map]
  · intro fuel σ c t h
    cases hr : resolve fuel σ t with
    | error e => simp [scopedResolve, h, hr, Except.map]
    | ok p =>
        obtain ⟨v, σ₂⟩ := p
        by_cases hs : regScopeIsScoped (getKey σ₂.st t) = true
        · simp [scopedResolve, h, hr, hs, Except.map]
        · simp [scopedResolve, h, hr, hs, Except.map]
  · intro fuel σ c t v σ₂ c₂ h u hu
    cases hl : lookupCache c t with
    | some w =>
        simp only [scopedResolve, hl, Except.ok.injEq, Prod.mk.injEq] at h
        obtain ⟨h1, h2, h3⟩ := h
        subst h3
        rfl
    | none =>
        cases hr : resolve fuel σ t with
        | error e =>
            simp only [scopedResolve, hl, hr] at h
            exact Except.noConfusion h
        | ok p =>
            obtain ⟨w, σ3⟩ := p
            simp only [scopedResolve, hl, hr] at h
            by_cases hs : regScopeIsScoped (getKey σ3.st t) = true
            · rw [if_pos hs] at h
              simp only [Except.ok.injEq, Prod.mk.injEq] at h
              obtain ⟨h1, h2, h3⟩ := h
              subst h3
              exact lookupCache_append_ne c t u w hu
            · rw [if_neg hs] at h
              simp only [Except.ok.injEq, Prod.mk.injEq] at h
              obtain ⟨h1, h2, h3⟩ := h
              subst h3
              rfl

/-- C10 witness: on an empty scope cache, resolving the dependent factory "f"
through the scoped resolver coincides with the ordinary resolve. -/
theorem scope_cache_direct_only_C10_w :
    lookupCache [] "f" = none
    ∧ (scopedResolve 2 depScopeState [] "f").map (fun r => (r.1, r.2.1))
        = resolve 2 depScopeState "f" :=
  ⟨rfl, scope_cache_direct_only_C10.2.1 2 depScopeState [] "f" rfl⟩

/-- C6: a rejected register/registerFactory call leaves everything unchanged —
at the store level an error allocates no snapshot and returns the store as it
was, so every token resolvable before still resolves identically — while a
successful call adds exactly the one new token (which was absent) and leaves
every other token's registration untouched. -/
theorem mutation_atomicity_C6 :
    (∀ (st : ContainerState) (t : Token) (v : Value) (st2 : ContainerState),
        register st t v = .ok st2 →
          hasKey st t = false
          ∧ (∀ u, hasKey st2 u = true ↔ (hasKey st u = true ∨ u = t))
          ∧ (∀ u, u ≠ t → getKey st2 u = getKey st u))
  ∧ (∀ (st : ContainerState) (t : Token) (dv : DescArg) (sc : Scope)
        (st2 : ContainerState),
        registerFactory st t dv sc = .ok st2 →
          hasKey st t = false
          ∧ (∀ u, hasKey st2 u = true ↔ (hasKey st u = true ∨ u = t))
          ∧ (∀ u, u ≠ t → getKey st2 u = getKey st u))
  ∧ (∀ (σ : Store) (r : Nat) (t : Token) (v : Value) (e : BuildError),
        (registerS σ r t v).2 = .error e → (registerS σ r t v).1 = σ)
  ∧ (∀ (σ : Store) (r : Nat) (t : Token) (dv : DescArg) (sc : Scope)
        (e : BuildError),
        (registerFactoryS σ r t dv sc).2 = .error e →
          (registerFactoryS σ r t dv sc).1 = σ) := by
  refine ⟨?_, ?_, ?_, ?_⟩
  · intro st t v st2 h
    simp only [register] at h
    by_cases hk : hasKey st t = true
    · rw [if_pos hk] at h
      exact Except.noConfusion h
    · rw [if_neg hk] at h
      simp only [Except.ok.injEq] at h
      subst h
      have hk2 : hasKey st t = false := by
        cases hv : hasKey st t with
        | false => rfl
        | true => exact absurd hv hk
      exact ⟨hk2, fun u => hasKey_setKey st t u (.value v),
        fun u hu => getKey_setKey_ne st t u (.value v) hu⟩
  · intro st t dv sc st2 h
    cases dv with
    | nonObject r =>
        simp only [registerFactory] at h
        exact Except.noConfusion h
    | jsNull =>
        simp only [registerFactory] at h
        exact Except.noConfusion h
    | desc d =>
        simp only [registerFactory] at h
        by_cases hk : hasKey st t = true
        · rw [if_pos hk] at h
          exact Except.noConfusion h
        · rw [if_neg hk] at h
          cases hdep : d.dependencies.find? (fun dep => !hasKey st dep) with
          | some m =>
              rw [hdep] at h
              exact Except.noConfusion h
          | none =>
              rw [hdep] at h
              simp only [replaceFactory, Except.ok.injEq] at h
              subst h
              have hk2 : hasKey st t = false := by
                cases hv : hasKey st t with
                | false => rfl
                | true => exact absurd hv hk
              exact ⟨hk2,
                fun u => hasKey_setKey st t u
                  (.factory d.dependencies (mkStored d.factory sc) (some sc)),
                fun u hu => getKey_setKey_ne st t u
                  (.factory d.dependencies (mkStored d.factory sc) (some sc)) hu⟩
  · intro σ r t v e h
    exact liftOp_error_eq σ (register (readState σ r) t v) e h
  · intro σ r t dv sc e h
    exact liftOp_error_eq σ (registerFactory (readState σ r) t dv sc) e h

/-- C6 witness: a successful registration on the empty state adds exactly one
token, and a registerFactory with a missing dependency leaves a concrete
one-snapshot store untouched. -/
theorem mutation_atomicity_C6_w :
    register [] "a" (.prim "x") = .ok [("a", Registration.value (.prim "x"))]
    ∧ hasKey [] "a" = false
    ∧ (hasKey [("a", Registration.value (.prim "x"))] "b" = true
        ↔ (hasKey ([] : ContainerState) "b" = true ∨ "b" = "a"))
    ∧ (registerFactoryS ⟨[[]]⟩ 0 "t" (.desc ⟨["missing"], argHeadFn⟩) .transient).1
        = ⟨[[]]⟩ :=
  ⟨rfl,
    (mutation_atomicity_C6.1 [] "a" (.prim "x")
      [("a", Registration.value (.prim "x"))] rfl).1,
    (mutation_atomicity_C6.1 [] "a" (.prim "x")
      [("a", Registration.value (.prim "x"))] rfl).2.1 "b",
    mutation_atomicity_C6.2.2.2 ⟨[[]]⟩ 0 "t" (.desc ⟨["missing"], argHeadFn⟩)
      .transient (.missingDependency "missing") rfl⟩

/-- Frame property of one lifted builder operation: previously allocated
snapshots are untouched, so a container over any of them resolves exactly as
before, and success hands back a freshly allocated snapshot. -/
theorem liftOp_frame (σ : Store) (res : Except BuildError ContainerState)
    (j : Nat) (hj : j < σ.states.length) :
    readState (liftOp σ res).1 j = readState σ j
    ∧ (∀ (fuel ctr : Nat) (tok : Token),
        resolve fuel ⟨readState (liftOp σ res).1 j, ctr⟩ tok
          = resolve fuel ⟨readState σ j, ctr⟩ tok)
    ∧ (∀ i, (liftOp σ res).2 = .ok i →
        i = σ.states.length ∧ (liftOp σ res).1.states.length = σ.states.length + 1) := by
  refine ⟨readState_liftOp σ res j hj, ?_, ?_⟩
  · intro fuel ctr tok
    rw [readState_liftOp σ res j hj]
  · intro i h
    exact liftOp_fresh σ res i h

/-- C7: every mutating builder operation (register, replace, registerFactory,
replaceFactory, replaceFactoryArray, merge) is pure with respect to the
receiver: the snapshot the receiving builder wraps — and every other
previously allocated snapshot — is unchanged, any container previously
obtained over such a snapshot resolves exactly as before, and a successful
operation returns a builder over a freshly allocated snapshot. -/
theorem builder_purity_C7 :
    (∀ (σ : Store) (r : Nat) (t : Token) (v : Value) (j : Nat),
        j < σ.states.length →
          readState (registerS σ r t v).1 j = readState σ j
          ∧ (∀ (fuel ctr : Nat) (tok : Token),
              resolve fuel ⟨readState (registerS σ r t v).1 j, ctr⟩ tok
                = resolve fuel ⟨readState σ j, ctr⟩ tok)
          ∧ (∀ i, (registerS σ r t v).2 = .ok i →
              i = σ.states.length
              ∧ (registerS σ r t v).1.states.length = σ.states.length + 1))
  ∧ (∀ (σ : Store) (r : Nat) (t : Token) (v : Value) (j : Nat),
        j < σ.states.length →
          readState (replaceS σ r t v).1 j = readState σ j
          ∧ (∀ (fuel ctr : Nat) (tok : Token),
              resolve fuel ⟨readState (replaceS σ r t v).1 j, ctr⟩ tok
                = resolve fuel ⟨readState σ j, ctr⟩ tok)
          ∧ (∀ i, (replaceS σ r t v).2 = .ok i →
              i = σ.states.length
              ∧ (replaceS σ r t v).1.states.length = σ.states.length + 1))
  ∧ (∀ (σ : Store) (r : Nat) (t : Token) (dv : DescArg) (sc : Scope) (j : Nat),
        j < σ.states.length →
          readState (registerFactoryS σ r t dv sc).1 j = readState σ j
          ∧ (∀ (fuel ctr : Nat) (tok : Token),
              resolve fuel ⟨readState (registerFactoryS σ r t dv sc).1 j, ctr⟩ tok
                = resolve fuel ⟨readState σ j, ctr⟩ tok)
          ∧ (∀ i, (registerFactoryS σ r t dv sc).2 = .ok i →
              i = σ.states.length
              ∧ (registerFactoryS σ r t dv sc).1.states.length = σ.states.length + 1))
  ∧ (∀ (σ : Store) (r : Nat) (t : Token) (dv : DescArg) (sc : Scope) (j : Nat),
        j < σ.states.length →
          readState (replaceFactoryS σ r t dv sc).1 j = readState σ j
          ∧ (∀ (fuel ctr : Nat) (tok : Token),
              resolve fuel ⟨readState (replaceFactoryS σ r t dv sc).1 j, ctr⟩ tok
                = resolve fuel ⟨readState σ j, ctr⟩ tok)
          ∧ (∀ i, (replaceFactoryS σ r t dv sc).2 = .ok i →
              i = σ.states.length
              ∧ (replaceFactoryS σ r t dv sc).1.states.length = σ.states.length + 1))
  ∧ (∀ (σ : Store) (r : Nat) (vs : List (Token × FactoryDescriptor)) (j : Nat),
        j < σ.states.length →
          readState (replaceFactoryArrayS σ r vs).1 j = readState σ j
          ∧ (∀ (fuel ctr : Nat) (tok : Token),
              resolve fuel ⟨readState (replaceFactoryArrayS σ r vs).1 j, ctr⟩ tok
                = resolve fuel ⟨readState σ j, ctr⟩ tok)
          ∧ (∀ i, (replaceFactoryArrayS σ r vs).2 = .ok i →
              i = σ.states.length
              ∧ (replaceFactoryArrayS σ r vs).1.states.length = σ.states.length + 1))
  ∧ (∀ (σ : Store) (r : Nat) (other : ContainerState) (j : Nat),
        j < σ.states.length →
          readState (mergeS σ r other).1 j = readState σ j
          ∧ (∀ (fuel ctr : Nat) (tok : Token),
              resolve fuel ⟨readState (mergeS σ r other).1 j, ctr⟩ tok
                = resolve fuel ⟨readState σ j, ctr⟩ tok)
          ∧ (∀ i, (mergeS σ r other).2 = .ok i →
              i = σ.states.length
              ∧ (mergeS σ r other).1.states.length = σ.states.length + 1)) := by
  refine ⟨?_, ?_, ?_, ?_, ?_, ?_⟩
  · intro σ r t v j hj
    exact liftOp_frame σ (register (readState σ r) t v) j hj
  · intro σ r t v j hj
    exact liftOp_frame σ (.ok (replace (readState σ r) t v)) j hj
  · intro σ r t dv sc j hj
    exact liftOp_frame σ (registerFactory (readState σ r) t dv sc) j hj
  · intro σ r t dv sc j hj
    exact liftOp_frame σ (replaceFactory (readState σ r) t dv sc) j hj
  · intro σ r vs j hj
    exact liftOp_frame σ (.ok (replaceFactoryArray (readState σ r) vs)) j hj
  · intro σ r other j hj
    exact liftOp_frame σ (.ok (merge (readState σ r) other)) j hj

/-- A one-snapshot store for the C7 witness. -/
def c7Store : Store := ⟨[[("a", .value (.prim "x"))]]⟩

/-- C7 witness: replacing on the concrete one-snapshot store leaves snapshot
0 readable unchanged and allocates snapshot index 1. -/
theorem builder_purity_C7_w :
    (0 : Nat) < c7Store.states.length
    ∧ readState (replaceS c7Store 0 "b" (.prim "y")).1 0 = readState c7Store 0
    ∧ ((replaceS c7Store 0 "b" (.prim "y")).2 = .ok 1 →
        (1 : Nat) = c7Store.states.length
        ∧ (replaceS c7Store 0 "b" (.prim "y")).1.states.length
            = c7Store.states.length + 1) :=
  ⟨by decide, (builder_purity_C7.2.1 c7Store 0 "b" (.prim "y") 0 (by decide)).1,
    (builder_purity_C7.2.1 c7Store 0 "b" (.prim "y") 0 (by decide)).2.2 1⟩

/-- C9 counterexample: for one dependency-free descriptor, the state produced
by replaceFactoryArray is not the state produced by one replaceFactory call:
the former stores the descriptor verbatim with no scope property, the latter
tags it with the default scope "transient". -/
theorem replaceFactoryArray_not_same_state_C9_cex :
    replaceFactoryArray [] [("t", c9Desc)] ≠ iterateReplaceFactory [] [("t", c9Desc)] := by
  intro h
  have h2 := congrArg (fun s => (getKey s "t").map regScopeTag) h
  simp [replaceFactoryArray, iterateReplaceFactory, replaceFactory, mkStored,
    c9Desc, setKey, getKey, regScopeTag] at h2

/-- C9 amended: replaceFactoryArray installs each descriptor under its token
unconditionally (its very type performs no validation and each list element
is stored by one setKey); its result agrees with calling replaceFactory once
per descriptor in list order up to the scope tags, which replaceFactoryArray
omits (it never wraps singletons either, there being no scope argument); and
resolution is oblivious to scope tags, so the two resulting containers
resolve identically. -/
theorem replaceFactoryArray_equiv_C9 :
    (∀ (st : ContainerState) (v : Token × FactoryDescriptor)
        (rest : List (Token × FactoryDescriptor)),
        replaceFactoryArray st (v :: rest)
          = replaceFactoryArray
              (setKey st v.1 (.factory v.2.dependencies (.plain v.2.factory) none))
              rest)
  ∧ (∀ (st : ContainerState) (vs : List (Token × FactoryDescriptor)),
        eraseTags (replaceFactoryArray st vs)
          = eraseTags (iterateReplaceFactory st vs))
  ∧ (∀ (fuel : Nat) (σ : RState) (t : Token),
        resolve fuel (eraseR σ) t
          = (resolve fuel σ t).map (fun p => (p.1, eraseR p.2))) := by
  refine ⟨fun st v rest => rfl, ?_, resolve_eraseR⟩
  intro st vs
  suffices hgen : ∀ (vs : List (Token × FactoryDescriptor)) (st1 st2 : ContainerState),
      eraseTags st1 = eraseTags st2 →
      eraseTags (replaceFactoryArray st1 vs) = eraseTags (iterateReplaceFactory st2 vs) by
    exact hgen vs st st rfl
  intro vs
  induction vs with
  | nil =>
      intro st1 st2 h
      exact h
  | cons v rest ih =>
      intro st1 st2 h
      have hstep : eraseTags (setKey st1 v.1
            (.factory v.2.dependencies (.plain v.2.factory) none))
          = eraseTags (setKey st2 v.1
              (.factory v.2.dependencies (mkStored v.2.factory .transient)
                (some .transient))) := by
        rw [eraseTags_setKey, eraseTags_setKey, h]
        rfl
      have lhs : replaceFactoryArray st1 (v :: rest)
          = replaceFactoryArray
              (setKey st1 v.1 (.factory v.2.dependencies (.plain v.2.factory) none))
              rest := rfl
      have rhs : iterateReplaceFactory st2 (v :: rest)
          = iterateReplaceFactory
              (setKey st2 v.1 (.factory v.2.dependencies
                (mkStored v.2.factory .transient) (some .transient)))
              rest := rfl
      rw [lhs, rhs]
      exact ih _ _ hstep

end FiocStrict
